import Mathlib

/-!
Verification of the supervisor runtime of the radio repository.

Shallow embedding of the parts of src/manager relevant to the checked
claims: the backoff policy and state (src/manager/runner/backoff.py), the
Runnable property returning backoff state (src/manager/runner/node.py),
the per-node supervision loop and graph construction of the runner
(src/manager/runner/runner.py), the two node flavours
(src/manager/runner/process_runnable.py, service_runnable.py), the
pending-reply map of the prefetch service (src/manager/prefetch/prefetch.py)
and the entry point (src/manager/main.py).

Monotonic times, uptimes and jitter are modelled as rationals.  Python
dicts keyed by node id are modelled as functions; the unspecified
iteration order of Python sets is an explicit list parameter.
-/

/-- Enumeration ControlNode from src/manager/runner/control.py (lines 12-22). -/
inductive ControlNode where
  | LIQUID_SOAP
  | FFMPEG
  | FETCH
  | NOW_PLAYING
  | SEARCH
  | API
  | DB
  | COORDINATOR
deriving DecidableEq, Repr

/-- Alphabetical rank of a ControlNode value.  ControlNode is a Python
StrEnum, so the NodeId order used by the spec for tie-breaks is the order
of the member strings; this function lists the eight member strings in
lexicographic order. -/
def nodeIdRank : ControlNode → Nat
  | .API => 0
  | .COORDINATOR => 1
  | .DB => 2
  | .FETCH => 3
  | .FFMPEG => 4
  | .LIQUID_SOAP => 5
  | .NOW_PLAYING => 6
  | .SEARCH => 7

/-- BackoffPolicy from src/manager/runner/backoff.py (lines 8-27), with the
field defaults of the source. -/
structure BackoffPolicy where
  base_sec : Rat := 1/2
  factor : Rat := 2
  max_sec : Rat := 30
  jitter_sec : Rat := 2/5
  reset_after_ok_sec : Rat := 60
  window_sec : Rat := 300
  max_restarts_in_window : Nat := 20
deriving DecidableEq, Repr

/-- BackoffState from src/manager/runner/backoff.py (lines 30-39). -/
structure BackoffState where
  policy : BackoffPolicy
  attempt : Nat := 0
  recent_starts : List Rat := []
deriving DecidableEq, Repr

/-- BackoffState.next_delay_with_jitter (backoff.py lines 41-52); the value
drawn by random.uniform is passed in as the jitter argument. -/
def BackoffState.next_delay_with_jitter (s : BackoffState) (jitter : Rat) : Rat :=
  let base := min s.policy.max_sec (s.policy.base_sec * s.policy.factor ^ (s.attempt - 1))
  max 0 (base + jitter)

/-- BackoffState.register_start (backoff.py lines 54-67); the value read from
time.monotonic is passed in as the now argument.  Appends now, evicts
entries older than the window, increments attempt. -/
def BackoffState.register_start (s : BackoffState) (now : Rat) : BackoffState :=
  let cutoff := now - s.policy.window_sec
  { s with
    recent_starts := (s.recent_starts ++ [now]).filter (fun t => cutoff ≤ t)
    attempt := s.attempt + 1 }

/-- BackoffState.reset_if_uptime_good (backoff.py lines 69-76). -/
def BackoffState.reset_if_uptime_good (s : BackoffState) (uptime_sec : Rat) : BackoffState :=
  if s.policy.reset_after_ok_sec ≤ uptime_sec then { s with attempt := 0 } else s

/-- BackoffState.too_many_restarts (backoff.py lines 78-83). -/
def BackoffState.too_many_restarts (s : BackoffState) : Bool :=
  s.policy.max_restarts_in_window < s.recent_starts.length

/-- Property Runnable.backoff_state (src/manager/runner/node.py lines 37-40):
every read constructs BackoffState(self.backoff_policy), i.e. a fresh state
with attempt 0 and empty recent_starts.  No concrete node overrides it. -/
def Runnable.backoffState (policy : BackoffPolicy) : BackoffState :=
  { policy := policy }

/-- State mutated by the call self.backoff_state.register_start() inside
ProcessRunnable.start (process_runnable.py line 113) and
ServiceRunnable.start (service_runnable.py line 55): the property is read
afresh, so register_start acts on a newly constructed BackoffState, not on
the one captured by the supervision loop. -/
def startRegisteredState (policy : BackoffPolicy) (now : Rat) : BackoffState :=
  (Runnable.backoffState policy).register_start now

/-- Effect of one iteration of Runner._supervise_node (runner.py lines
232-308) on the BackoffState captured at line 225.  The iteration calls
node.runnable.start (whose register_start mutates the discarded fresh state
of startRegisteredState), waits for exit, and applies
reset_if_uptime_good (line 293) to the captured state; nothing else in the
loop mutates the captured state. -/
def superviseIterBackoff (s : BackoffState) (uptime : Rat) : BackoffState :=
  s.reset_if_uptime_good uptime

/-- BackoffState observed by the supervision loop of one node after a given
sequence of node runs with the given uptimes: the state captured once at
runner.py line 225 from the Runnable.backoff_state property, folded through
the per-iteration effect. -/
def superviseBackoffState (policy : BackoffPolicy) (uptimes : List Rat) : BackoffState :=
  uptimes.foldl superviseIterBackoff (Runnable.backoffState policy)

/-- Modelled from the spec (section 4.6 pseudo-code): the supervision loop
calls register_start() on its own backoff state before each start, then
reset_if_uptime_good after the exit.  Each list entry is a pair of the
start time and the observed uptime of that run.  This is the behaviour the
spec describes; the code differs (see superviseBackoffState). -/
def specSuperviseBackoffState (policy : BackoffPolicy) (runs : List (Rat × Rat)) :
    BackoffState :=
  runs.foldl (fun s r => (s.register_start r.1).reset_if_uptime_good r.2)
    (Runnable.backoffState policy)

/-- Breaker-trip policy of scenario S3 of the spec: window 10 s, at most 3
restarts in the window. -/
def s3Policy : BackoffPolicy :=
  { window_sec := 10, max_restarts_in_window := 3 }

/-- State visible to the parent-readiness gate of one node's supervision
loop: the process-wide shutdown event, the node's disabled flag, and the
per-node ready events. -/
structure GateState where
  shutdown : Bool
  disabled : Bool
  ready : ControlNode → Bool

/-- Return condition of Runner._wait_parents_ready (runner.py lines 376-395)
in a stable state: the call returns immediately when the node has no
parents (line 378), when the shutdown event is set (loop guard, line 382),
when the node's disabled flag is set (line 383), or when every parent's
ready event is set (line 386); otherwise it keeps waiting. -/
def waitParentsReturns (parents : List ControlNode) (st : GateState) : Bool :=
  parents.isEmpty || st.shutdown || st.disabled || parents.all (fun p => st.ready p)

/-- Start condition of the supervision loop (runner.py lines 232-239): the
loop enters an iteration while shutdown is unset, passes the parent gate,
re-checks shutdown, and then calls node.runnable.start. -/
def startsNode (parents : List ControlNode) (st : GateState) : Bool :=
  waitParentsReturns parents st && !st.shutdown

/-- Observable effect of Runner._stop_node (runner.py lines 397-406): the
method returns early when the node id is unknown (line 399) or the node has
no live handle (line 402), otherwise it awaits node.runnable.stop.  It
never touches ready_event_map, so the ready events are returned unchanged;
the Bool records whether runnable.stop was invoked. -/
def stopNode (known handles ready : ControlNode → Bool) (c : ControlNode) :
    (ControlNode → Bool) × Bool :=
  (ready, known c && handles c)

/-- Exit phase of Runner._supervise_node (runner.py lines 268-271): when the
node's wait_or_shutdown returns, the loop clears the node's own ready event
and then calls _stop_node on each child, in the set-iteration order of
self._children[node].  Returns the updated ready events and the children
on which runnable.stop was invoked. -/
def superviseExitPhase (known handles ready : ControlNode → Bool) (n : ControlNode)
    (children : List ControlNode) : (ControlNode → Bool) × List ControlNode :=
  children.foldl
    (fun acc c =>
      let r := stopNode known handles acc.1 c
      (r.1, acc.2 ++ if r.2 then [c] else []))
    (Function.update ready n false, ([] : List ControlNode))

/-- Response of an external OS process to the stop protocol: whether the
process group exits within stop_timeout of the terminate signal and,
failing that, within kill_timeout of the kill signal, and the return codes
observed in each case. -/
structure ProcessBehavior where
  dies_on_term : Bool
  dies_on_kill : Bool
  term_code : Int
  kill_code : Int

/-- Supervisor-visible state of a process-node handle: the returncode of the
asyncio subprocess (None while running) and whether the two stream drainer
tasks have been cancelled and drained. -/
structure ProcessStopState where
  returncode : Option Int
  drainers_stopped : Bool
deriving DecidableEq, Repr

/-- ProcessRunnable.stop (process_runnable.py lines 207-258).  The terminate
signal is sent to the process group only while returncode is unset (line
213); the wait at line 228 returns at once for an already exited process;
on timeout the kill signal is sent to the group and waited on again; signal
errors are logged and never raised; finally both drainers are cancelled and
drained (cancelling already finished tasks changes nothing). -/
def processStop (b : ProcessBehavior) (s : ProcessStopState) : ProcessStopState :=
  let rc : Option Int :=
    match s.returncode with
    | some r => some r
    | none =>
      if b.dies_on_term then some b.term_code
      else if b.dies_on_kill then some b.kill_code
      else none
  { returncode := rc, drainers_stopped := true }

/-- States of the worker task owned by a service node. -/
inductive TaskState where
  | running
  | finished
  | cancelled
deriving DecidableEq, Repr

/-- Whether the service worker returns within stop_timeout once the internal
stop event has been set. -/
structure ServiceBehavior where
  finishes_on_stop : Bool

/-- Supervisor-visible state of a service node during stop: the internal
stop event and the worker task. -/
structure ServiceStopState where
  stop_event : Bool
  task : TaskState
deriving DecidableEq, Repr

/-- ServiceRunnable.stop (service_runnable.py lines 116-140): sets the
internal stop event, awaits the shielded worker task up to stop_timeout
(returning at once when the task has already finished), treats an already
cancelled task as a graceful cancel, and cancels the task itself on
timeout. -/
def serviceStop (b : ServiceBehavior) (s : ServiceStopState) : ServiceStopState :=
  { stop_event := true
    task :=
      match s.task with
      | .finished => .finished
      | .cancelled => .cancelled
      | .running => if b.finishes_on_stop then .finished else .cancelled }

/-- ServiceHandle (service_runnable.py lines 22-31): carries the start time
and the worker task, defines pid as None and does not override the
is_alive property of NodeHandle. -/
structure ServiceHandle where
  started_monotonic : Rat
  task : TaskState

/-- Property NodeHandle.is_alive default (node.py lines 136-138), inherited
unchanged by ServiceHandle: it returns True regardless of the worker task
state. -/
def ServiceHandle.is_alive (_h : ServiceHandle) : Bool := true

/-- Property ServiceHandle.pid (service_runnable.py lines 29-31). -/
def ServiceHandle.pid (_h : ServiceHandle) : Option Int := none

/-- Running field of the health snapshot for one node (runner.py line 71):
handle.is_alive when the node has a handle, False otherwise. -/
def healthRunning (handle : Option ServiceHandle) : Bool :=
  match handle with
  | some h => h.is_alive
  | none => false

/-- Liveness test of the health watchdog (runner.py line 439): the watchdog
gives up watching exactly when the handle is missing or reports not
alive. -/
def watchdogSeesDead (handle : Option ServiceHandle) : Bool :=
  match handle with
  | some h => !h.is_alive
  | none => true

/-- Handle constructed by ServiceRunnable.start (service_runnable.py line
57). -/
def serviceStartHandle (now : Rat) (task : TaskState) : ServiceHandle :=
  { started_monotonic := now, task := task }

/-- Future stored in the pending-reply map of PrefetchService: done is true
once the future has been resolved or cancelled. -/
structure PendingFuture where
  done : Bool
deriving DecidableEq, Repr

/-- Effect on the pending-reply map of the response branch of
PrefetchService.receive (prefetch.py lines 107-139), for a message whose
action is MISSING_AUDIO_RESPONSE or TRACK_BY_ID_RESPONSE with correlation
id c.  The entry keyed by str(c) is popped from self._pending (line 116);
when a not-yet-done future was present it is resolved with the payload and
the handler returns Success (lines 117-132); otherwise the message is
logged as future-not-found and falls through to the outer match, which
answers unknown-action (lines 133-190).  Returns the new map, the
correlation id whose future was resolved (if any), and whether the handler
reported success. -/
def prefetchReceiveResponse (pending : String → Option PendingFuture) (c : String) :
    (String → Option PendingFuture) × Option String × Bool :=
  match pending c with
  | some f =>
    if f.done then (Function.update pending c none, none, false)
    else (Function.update pending c none, some c, true)
  | none => (pending, none, false)

/-- Reply built by RepoService.receive for a MISSING_AUDIO request
(repo_service.py lines 91-103): a MISSING_AUDIO_RESPONSE to the FETCH node
echoing the request's correlation id, so the response targets exactly the
requester's pending entry. -/
def repoMissingAudioReplyId (request_correlation_id : String) : String :=
  request_correlation_id

/-- State of the while-loop of Runner._toposort (runner.py lines 321-374):
the inbound edge counts (Python ints, so they may go below zero), the ready
queue and the output order. -/
structure KahnState where
  counts : ControlNode → Int
  queue : List ControlNode
  order : List ControlNode

/-- Inner for-loop of one while-iteration of Runner._toposort (lines
365-368): decrement the inbound count of every dependent of the popped
node, appending to the ready queue each dependent whose count reaches
exactly zero.  The dependents are visited in the order of the given
list. -/
def processDependents (dependents : List ControlNode) (s : KahnState) : KahnState :=
  dependents.foldl
    (fun s d =>
      { s with
        counts := Function.update s.counts d (s.counts d - 1)
        queue := if s.counts d - 1 = 0 then s.queue ++ [d] else s.queue })
    s

/-- One iteration of the while-loop of Runner._toposort (lines 361-368): pop
the queue head, append it to the order, then process its dependents.  The
set iteration of dependents_by_node[node] is modelled by filtering the
all-nodes iteration list.  On an empty queue the state is unchanged. -/
def kahnStep (deps : ControlNode → Finset ControlNode) (iter : List ControlNode)
    (s : KahnState) : KahnState :=
  match s.queue with
  | [] => s
  | n :: rest =>
    processDependents (iter.filter (fun d => n ∈ deps d))
      { s with queue := rest, order := s.order ++ [n] }

/-- Fuelled iteration of the while-loop of Runner._toposort. -/
def kahnRun (deps : ControlNode → Finset ControlNode) (iter : List ControlNode) :
    Nat → KahnState → KahnState
  | 0, s => s
  | fuel + 1, s => kahnRun deps iter fuel (kahnStep deps iter s)

/-- Runner._toposort (runner.py lines 321-374).  After the unknown-dependency
check of Runner.__init__ every mentioned dependency is itself a key, so the
all-nodes set coincides with the key set of the mapping; iter is its Python
set iteration order — deterministic only per process, since ControlNode is
a string-valued enum and string hashing is randomized.  The counts start at
the dependency count of each node, the ready queue is seeded with the
zero-count nodes in iteration order, and the while loop runs until the
queue empties; 2*|iter|+1 steps always suffice because a node enters the
queue at most once from the seeding and at most once when its strictly
decreasing count passes exactly zero, and a step with an empty queue
changes nothing. -/
def toposort (deps : ControlNode → Finset ControlNode) (iter : List ControlNode) :
    List ControlNode :=
  (kahnRun deps iter (2 * iter.length + 1)
    { counts := fun n => ((deps n).card : Int)
      queue := iter.filter (fun n => (deps n).card = 0)
      order := [] }).order

/-- Final cycle check of Runner._toposort (lines 370-372): a ValueError is
raised when not every node was ordered. -/
def toposortE (deps : ControlNode → Finset ControlNode) (iter : List ControlNode) :
    Except String (List ControlNode) :=
  if (toposort deps iter).length = iter.length then .ok (toposort deps iter)
  else .error "Graph contains a cycle"

/-- Declarative node entry handed to Runner (src/manager/runner/node.py
lines 101-112): id, parent ids and disabled flag.  The runnable itself is
not needed for the graph-level claims. -/
structure NodeDecl where
  id : ControlNode
  parent : List ControlNode := []
  disabled : Bool := false

/-- Parent mapping self._parents built by Runner.__init__ (runner.py lines
42-44): node id to the set of its declared parents. -/
def runnerParents (nodes : List NodeDecl) (i : ControlNode) : Finset ControlNode :=
  match nodes.find? (fun n => n.id == i) with
  | some n => n.parent.toFinset
  | none => ∅

/-- Validation sequence of Runner.__init__ (runner.py lines 22-55): reject an
empty node list (line 23), duplicate node ids (line 38), unknown
dependencies (line 48) and, through _toposort and the order length check
(lines 53-55), dependency cycles; on success the topological order is
kept.  Each rejection raises ValueError. -/
def runnerInit (iter : List ControlNode) (nodes : List NodeDecl) :
    Except String (List ControlNode) :=
  if nodes.isEmpty then .error "At least one Node is required"
  else if ¬ (nodes.map (fun n => n.id)).Nodup then
    .error "Duplicate node IDs are not allowed"
  else if ¬ (nodes.all fun n =>
      n.parent.all fun d => (nodes.map (fun m => m.id)).contains d) then
    .error "Unknown dependency"
  else
    match toposortE (runnerParents nodes) iter with
    | .error e => .error e
    | .ok order =>
      if order.length = nodes.length then .ok order
      else .error "Dependency cycle detected"

/-- Causes that set the shutdown event during a run (runner.py: signal
handler line 217, start returning None lines 240-242, breaker branch lines
299-302, bus returning None lines 153-157, explicit stop lines 310-317). -/
inductive ShutdownCause where
  | osSignal
  | fatalStartError
  | breakerTrip
  | busClosed
  | explicitStop
deriving DecidableEq, Repr

/-- Exit status of the whole process for one run of main.run (main.py lines
46-51).  When Runner construction raises ValueError the exception escapes
asyncio.run and run() uncaught, so the interpreter exits with status 1.
When construction succeeds, Runner.execute returns normally whatever set
the shutdown event — its finally block performs the graceful stop and task
sweep with exceptions suppressed — so asyncio.run returns and run() returns
0; KeyboardInterrupt and SystemExit are also mapped to 0. -/
def runExitCode (iter : List ControlNode) (nodes : List NodeDecl)
    (_cause : ShutdownCause) : Nat :=
  match runnerInit iter nodes with
  | .error _ => 1
  | .ok _ => 0

/-- Node list built by start_radio (src/manager/main.py lines 19-39). -/
def mainNodes : List NodeDecl :=
  [{ id := .DB },
    { id := .SEARCH, parent := [.DB] },
    { id := .FETCH, parent := [.DB] },
    { id := .FFMPEG },
    { id := .LIQUID_SOAP, parent := [.FFMPEG] }]

/-- One admissible set-iteration order for the node ids of mainNodes. -/
def mainIter : List ControlNode := [.DB, .SEARCH, .FETCH, .FFMPEG, .LIQUID_SOAP]

/-- Number of parents of a node not yet emitted into the order; the inbound
counts of Runner._toposort track exactly this quantity. -/
def kahnPendingCount (deps : ControlNode → Finset ControlNode)
    (order : List ControlNode) (d : ControlNode) : Int :=
  (((deps d).filter (fun p => p ∉ order)).card : Int)

/-- Loop invariant of the while-loop of Runner._toposort. -/
structure KahnInv (deps : ControlNode → Finset ControlNode) (iter : List ControlNode)
    (s : KahnState) : Prop where
  counts_eq : ∀ d ∈ iter, s.counts d = kahnPendingCount deps s.order d
  nodup : (s.order ++ s.queue).Nodup
  queue_deps : ∀ n ∈ s.queue, ∀ p ∈ deps n, p ∈ s.order
  order_deps : ∀ n ∈ s.order, ∀ p ∈ deps n, p ∈ s.order
  order_sub : ∀ n ∈ s.order, n ∈ iter
  queue_sub : ∀ n ∈ s.queue, n ∈ iter
  forward : s.order.Pairwise (fun a b => b ∉ deps a)
  no_self : ∀ n ∈ s.order, n ∉ deps n

/-- Final state of the fuelled Kahn loop of Runner._toposort. -/
def kahnFinal (deps : ControlNode → Finset ControlNode) (iter : List ControlNode) :
    KahnState :=
  kahnRun deps iter (2 * iter.length + 1)
    { counts := fun n => ((deps n).card : Int)
      queue := iter.filter (fun n => (deps n).card = 0)
      order := [] }

/-- Stop sequence of Runner._graceful_stop_all (runner.py lines 408-411)
during shutdown: the nodes are visited in reverse topological order and
_stop_node invokes runnable.stop exactly on the still-running ones, i.e.
those with a live handle (runner.py lines 401-403). -/
def gracefulStopSequence (deps : ControlNode → Finset ControlNode)
    (iter : List ControlNode) (handles : ControlNode → Bool) : List ControlNode :=
  (toposort deps iter).reverse.filter handles

theorem superviseIterBackoff_fields (s : BackoffState) (u : Rat) :
    (superviseIterBackoff s u).recent_starts = s.recent_starts ∧
      (superviseIterBackoff s u).attempt ≤ s.attempt := by
  unfold superviseIterBackoff BackoffState.reset_if_uptime_good
  by_cases h : s.policy.reset_after_ok_sec ≤ u <;> simp [h]

theorem superviseBackoffState_fields (policy : BackoffPolicy) (uptimes : List Rat) :
    (superviseBackoffState policy uptimes).recent_starts = [] ∧
      (superviseBackoffState policy uptimes).attempt = 0 := by
  unfold superviseBackoffState
  have h : ∀ (us : List Rat) (s : BackoffState),
      s.recent_starts = [] → s.attempt = 0 →
      (us.foldl superviseIterBackoff s).recent_starts = [] ∧
        (us.foldl superviseIterBackoff s).attempt = 0 := by
    intro us
    induction us with
    | nil => intro s h1 h2; exact ⟨h1, h2⟩
    | cons u us ih =>
      intro s h1 h2
      apply ih
      · exact (superviseIterBackoff_fields s u).1.trans h1
      · exact Nat.le_antisymm (h2 ▸ (superviseIterBackoff_fields s u).2) (Nat.zero_le _)
  exact h uptimes _ rfl rfl

/-- C1.  Breaker trip.  The claim says the supervision loop abandons retry
and triggers global shutdown when recent starts exceed
max_restarts_in_window; with the S3 policy (window 10 s, limit 3) a node
exiting within 1 s of each start should trip the breaker on the 4th start.
The code cannot do this: the BackoffState captured by the loop (runner.py
line 225) comes from the Runnable.backoff_state property, which builds a
fresh object on every read, and register_start inside start mutates yet
another fresh property read; so the loop-observed recent_starts is always
empty and too_many_restarts is false after any number of restarts — while
the loop the spec describes (register_start on the loop's own state) trips
after the 4th start at times 0,1,2,3 within the 10 s window. -/
theorem c1_breaker_never_trips :
    (∀ uptimes : List Rat,
        (superviseBackoffState s3Policy uptimes).too_many_restarts = false) ∧
      (specSuperviseBackoffState s3Policy
          [(0, 1), (1, 1), (2, 1), (3, 1)]).too_many_restarts = true := by
  constructor
  · intro uptimes
    have h := superviseBackoffState_fields s3Policy uptimes
    simp [BackoffState.too_many_restarts, h.1]
  · norm_num [specSuperviseBackoffState, BackoffState.register_start,
      BackoffState.reset_if_uptime_good, Runnable.backoffState, s3Policy,
      BackoffState.too_many_restarts, List.filter]

/-- C2.  Every read of the Runnable.backoff_state property yields a fresh
BackoffState with attempt 0 and empty recent_starts; the state captured by
a node's supervision loop is never the object mutated by register_start
inside start (that mutation produces startRegisteredState, whose attempt is
1), and the loop-observed attempt and recent_starts remain 0 and empty
across all restarts. -/
theorem c2_backoff_state_property_fresh (policy : BackoffPolicy) (uptimes : List Rat)
    (now : Rat) :
    Runnable.backoffState policy = { policy := policy, attempt := 0, recent_starts := [] } ∧
      (superviseBackoffState policy uptimes).attempt = 0 ∧
      (superviseBackoffState policy uptimes).recent_starts = [] ∧
      (startRegisteredState policy now).attempt = 1 := by
  refine ⟨rfl, (superviseBackoffState_fields policy uptimes).2,
    (superviseBackoffState_fields policy uptimes).1, rfl⟩

/-- C5, counterexample.  The claim says a node with parents never has start
called before every parent's ready event is set, even when the node's
disabled flag is set.  In the state where node FETCH is disabled, its
parent DB is not ready and no shutdown is pending, _wait_parents_ready
returns at once through the disabled branch (runner.py line 383-384) and
the loop proceeds to call start. -/
theorem c5_disabled_node_starts_unready_parent :
    startsNode [ControlNode.DB]
        { shutdown := false, disabled := true, ready := fun _ => false } = true ∧
      (GateState.ready
        { shutdown := false, disabled := true, ready := fun _ => false }) ControlNode.DB
        = false :=
  ⟨rfl, rfl⟩

/-- C5, amended.  Provided the node's disabled flag is not set, a node with
parents never has start called before every parent's ready event is set; a
disabled node's gate returns immediately and the loop proceeds to start it
regardless of parent readiness. -/
theorem c5_parent_gate_when_enabled (parents : List ControlNode) (st : GateState)
    (hdis : st.disabled = false) (hstart : startsNode parents st = true) :
    ∀ p ∈ parents, st.ready p = true := by
  intro p hp
  unfold startsNode waitParentsReturns at hstart
  rw [hdis] at hstart
  cases hs : st.shutdown
  · rw [hs] at hstart
    simp at hstart
    rcases hstart with h | h
    · subst h; cases hp
    · exact h p hp
  · rw [hs] at hstart
    simp at hstart

/-- Witness for c5_parent_gate_when_enabled: for an enabled LIQUID_SOAP node
with parent FFMPEG ready, the gate passes and the theorem yields the parent
readiness. -/
theorem c5_parent_gate_when_enabled_witness :
    GateState.ready { shutdown := false, disabled := false, ready := fun _ => true }
      ControlNode.FFMPEG = true :=
  c5_parent_gate_when_enabled [ControlNode.FFMPEG]
    { shutdown := false, disabled := false, ready := fun _ => true }
    rfl rfl ControlNode.FFMPEG (by simp)

theorem superviseExitPhase_eq (known handles ready : ControlNode → Bool)
    (n : ControlNode) (children : List ControlNode) :
    superviseExitPhase known handles ready n children =
      (Function.update ready n false,
        children.filter (fun c => known c && handles c)) := by
  unfold superviseExitPhase
  have h : ∀ (cs : List ControlNode) (r : ControlNode → Bool) (acc : List ControlNode),
      cs.foldl
          (fun acc c =>
            let r := stopNode known handles acc.1 c
            (r.1, acc.2 ++ if r.2 then [c] else []))
          (r, acc) =
        (r, acc ++ cs.filter (fun c => known c && handles c)) := by
    intro cs
    induction cs with
    | nil => intro r acc; simp
    | cons c cs ih =>
      intro r acc
      rw [List.foldl_cons]
      refine Eq.trans (ih r (acc ++ if known c && handles c then [c] else [])) ?_
      rw [List.filter_cons]
      cases h : known c && handles c <;> simp [h]
  exact h children _ _

/-- C4, counterexample.  The claim says _stop_node(c) clears the child's
ready latch.  With every node known and holding a live handle and every
ready event set, _stop_node(SEARCH) does invoke runnable.stop, yet the
ready event of SEARCH is still set afterwards: _stop_node never touches
ready_event_map. -/
theorem c4_stop_node_leaves_latch_set :
    (stopNode (fun _ => true) (fun _ => true) (fun _ => true) ControlNode.SEARCH).1
        ControlNode.SEARCH = true ∧
      (stopNode (fun _ => true) (fun _ => true) (fun _ => true) ControlNode.SEARCH).2
        = true :=
  ⟨rfl, rfl⟩

/-- C4, amended.  When a node exits, its supervision loop clears the node's
own ready event and then calls _stop_node on every child, which invokes the
child's runnable.stop exactly when the child is known and has a live
handle; _stop_node itself leaves every ready event unchanged, and a child's
own ready event is cleared by the child's own supervision loop (this same
exit phase, applied to the child) once its wait_or_shutdown returns, after
which the child re-enters the parent-wait phase. -/
theorem c4_exit_phase_cascade (known handles ready : ControlNode → Bool)
    (n : ControlNode) (children : List ControlNode) :
    (superviseExitPhase known handles ready n children).1 n = false ∧
      (∀ m, m ≠ n →
        (superviseExitPhase known handles ready n children).1 m = ready m) ∧
      (superviseExitPhase known handles ready n children).2 =
        children.filter (fun c => known c && handles c) := by
  rw [superviseExitPhase_eq]
  refine ⟨Function.update_same n false ready, ?_, rfl⟩
  intro m hm
  exact Function.update_noteq hm false ready

/-- Witness for c4_exit_phase_cascade at the main.py graph: node DB exits
with children SEARCH and FETCH, all holding handles and ready. -/
theorem c4_exit_phase_cascade_witness :
    (superviseExitPhase (fun _ => true) (fun _ => true) (fun _ => true) ControlNode.DB
          [ControlNode.SEARCH, ControlNode.FETCH]).1 ControlNode.DB = false ∧
      (superviseExitPhase (fun _ => true) (fun _ => true) (fun _ => true) ControlNode.DB
          [ControlNode.SEARCH, ControlNode.FETCH]).1 ControlNode.SEARCH = true ∧
      (superviseExitPhase (fun _ => true) (fun _ => true) (fun _ => true) ControlNode.DB
          [ControlNode.SEARCH, ControlNode.FETCH]).2 =
        [ControlNode.SEARCH, ControlNode.FETCH] := by
  have h := c4_exit_phase_cascade (fun _ => true) (fun _ => true) (fun _ => true)
    ControlNode.DB [ControlNode.SEARCH, ControlNode.FETCH]
  exact ⟨h.1, (h.2.1 ControlNode.SEARCH (by decide)).trans rfl, h.2.2.trans (by decide)⟩

/-- C9.  Stop is idempotent for both node flavors: a second stop after a
completed stop performs no further state change, for every handle state —
including a process that is already dead (returncode set) and a service
task that has already exited or been cancelled. -/
theorem c9_stop_idempotent (pb : ProcessBehavior) (ps : ProcessStopState)
    (sb : ServiceBehavior) (ss : ServiceStopState) :
    processStop pb (processStop pb ps) = processStop pb ps ∧
      serviceStop sb (serviceStop sb ss) = serviceStop sb ss := by
  constructor
  · unfold processStop
    rcases ps with ⟨rc, d⟩
    cases rc
    · by_cases h1 : pb.dies_on_term = true
      · simp [h1]
      · rw [Bool.not_eq_true] at h1
        by_cases h2 : pb.dies_on_kill = true
        · simp [h1, h2]
        · rw [Bool.not_eq_true] at h2
          simp [h1, h2]
    · simp
  · unfold serviceStop
    rcases ss with ⟨ev, task⟩
    cases task
    · by_cases h : sb.finishes_on_stop = true
      · simp [h]
      · rw [Bool.not_eq_true] at h
        simp [h]
    · simp
    · simp

/-- C10.  The handle returned by ServiceRunnable.start reports is_alive True
at all times — in every task state, including a finished worker task —
because ServiceHandle inherits the NodeHandle default; hence the health
snapshot's running field is True whenever the handle is present, and the
health watchdog's liveness test never observes a service node as dead. -/
theorem c10_service_handle_always_alive (now : Rat) (task : TaskState) :
    (serviceStartHandle now task).is_alive = true ∧
      healthRunning (some (serviceStartHandle now task)) = true ∧
      watchdogSeesDead (some (serviceStartHandle now task)) = false :=
  ⟨rfl, rfl, rfl⟩

/-- C7.  A response message resolves at most one pending reply: the
requester's receive pops the entry keyed by the correlation id C when
resolving it, leaves all other entries untouched, and a second (duplicate
or late) response carrying the same C finds no entry and is dropped
without resolving anything; the replier echoes the request's correlation
id unchanged. -/
theorem prefetchReceiveResponse_none (pending : String → Option PendingFuture)
    (c : String) (hc : pending c = none) :
    prefetchReceiveResponse pending c = (pending, none, false) := by
  unfold prefetchReceiveResponse
  rw [hc]

theorem prefetchReceiveResponse_done (pending : String → Option PendingFuture)
    (c : String) (f : PendingFuture) (hc : pending c = some f) (hf : f.done = true) :
    prefetchReceiveResponse pending c = (Function.update pending c none, none, false) := by
  unfold prefetchReceiveResponse
  rw [hc]
  simp [hf]

theorem prefetchReceiveResponse_fresh (pending : String → Option PendingFuture)
    (c : String) (f : PendingFuture) (hc : pending c = some f) (hf : f.done = false) :
    prefetchReceiveResponse pending c = (Function.update pending c none, some c, true) := by
  unfold prefetchReceiveResponse
  rw [hc]
  simp [hf]

theorem prefetchReceiveResponse_key_cleared (pending : String → Option PendingFuture)
    (c : String) : (prefetchReceiveResponse pending c).1 c = none := by
  cases hc : pending c with
  | none => rw [prefetchReceiveResponse_none pending c hc]; exact hc
  | some f =>
    cases hf : f.done
    · rw [prefetchReceiveResponse_fresh pending c f hc hf]
      exact Function.update_same c none pending
    · rw [prefetchReceiveResponse_done pending c f hc hf]
      exact Function.update_same c none pending

/-- C7.  A response message resolves at most one pending reply: the
requester's receive pops the entry keyed by the correlation id C when
resolving it, leaves all other entries untouched, and a second (duplicate
or late) response carrying the same C finds no entry and is dropped
without resolving anything; the replier echoes the request's correlation
id unchanged. -/
theorem c7_response_resolves_at_most_one (pending : String → Option PendingFuture)
    (c : String) :
    (∀ r, (prefetchReceiveResponse pending c).2.1 = some r → r = c) ∧
      ((prefetchReceiveResponse pending c).2.1 = some c →
        ∃ f, pending c = some f ∧ f.done = false) ∧
      ((prefetchReceiveResponse pending c).1 c = none) ∧
      (∀ c2, c2 ≠ c → (prefetchReceiveResponse pending c).1 c2 = pending c2) ∧
      (prefetchReceiveResponse (prefetchReceiveResponse pending c).1 c).2.1 = none ∧
      (prefetchReceiveResponse (prefetchReceiveResponse pending c).1 c).1 =
        (prefetchReceiveResponse pending c).1 ∧
      repoMissingAudioReplyId c = c := by
  have hkey := prefetchReceiveResponse_key_cleared pending c
  have hsecond := prefetchReceiveResponse_none (prefetchReceiveResponse pending c).1 c hkey
  refine ⟨?_, ?_, hkey, ?_, ?_, ?_, rfl⟩
  · intro r hr
    cases hc : pending c with
    | none => rw [prefetchReceiveResponse_none pending c hc] at hr; cases hr
    | some f =>
      cases hf : f.done
      · rw [prefetchReceiveResponse_fresh pending c f hc hf] at hr
        exact (Option.some_inj.mp hr).symm
      · rw [prefetchReceiveResponse_done pending c f hc hf] at hr; cases hr
  · intro hr
    cases hc : pending c with
    | none => rw [prefetchReceiveResponse_none pending c hc] at hr; cases hr
    | some f =>
      cases hf : f.done
      · exact ⟨f, rfl, hf⟩
      · rw [prefetchReceiveResponse_done pending c f hc hf] at hr; cases hr
  · intro c2 h2
    cases hc : pending c with
    | none => rw [prefetchReceiveResponse_none pending c hc]
    | some f =>
      cases hf : f.done
      · rw [prefetchReceiveResponse_fresh pending c f hc hf]
        exact Function.update_noteq h2 none pending
      · rw [prefetchReceiveResponse_done pending c f hc hf]
        exact Function.update_noteq h2 none pending
  · rw [hsecond]
  · rw [hsecond]

/-- Witness for c7_response_resolves_at_most_one: with a single pending
not-yet-done future stored under id c1, processing a response for c1
removes that entry and leaves the entry of any other id untouched. -/
theorem c7_response_resolves_at_most_one_witness :
    (prefetchReceiveResponse
        (fun x => if x = "c1" then some { done := false } else none) "c1").1 "c1"
      = none ∧
    (prefetchReceiveResponse
        (fun x => if x = "c1" then some { done := false } else none) "c1").1 "c2"
      = none := by
  have h := c7_response_resolves_at_most_one
    (fun x => if x = "c1" then some { done := false } else none) "c1"
  exact ⟨h.2.2.1, (h.2.2.2.1 "c2" (by decide)).trans (by simp)⟩

theorem kahnRun_no_edges (iter : List ControlNode) :
    ∀ (fuel : Nat) (q o : List ControlNode) (c : ControlNode → Int),
      q.length ≤ fuel →
      (kahnRun (fun _ => (∅ : Finset ControlNode)) iter fuel
          { counts := c, queue := q, order := o }).order = o ++ q := by
  intro fuel
  induction fuel with
  | zero =>
    intro q o c hq
    rw [Nat.le_zero, List.length_eq_zero] at hq
    subst hq
    simp [kahnRun]
  | succ fuel ih =>
    intro q o c hq
    cases q with
    | nil => rw [kahnRun, kahnStep, ih [] o c (Nat.zero_le _)]
    | cons n rest =>
      have hstep : kahnStep (fun _ => (∅ : Finset ControlNode)) iter
          { counts := c, queue := n :: rest, order := o } =
          { counts := c, queue := rest, order := o ++ [n] } := by
        unfold kahnStep
        simp [processDependents, List.filter_eq_nil_iff]
      rw [kahnRun, hstep, ih rest (o ++ [n]) c (Nat.le_of_succ_le_succ hq)]
      simp

/-- C6, amended.  Ties in Runner._toposort are broken by the iteration order
of the all-nodes set, not by NodeId: on a graph with no edges the computed
order is exactly the set-iteration order, whatever it is. -/
theorem c6_toposort_follows_iteration_order (iter : List ControlNode) :
    toposort (fun _ => (∅ : Finset ControlNode)) iter = iter := by
  unfold toposort
  have hq : iter.filter
      (fun n => ((∅ : Finset ControlNode).card = 0 : Bool)) = iter := by
    simp
  rw [hq, kahnRun_no_edges iter (2 * iter.length + 1) iter [] _ (by omega)]
  simp

/-- C6, counterexample.  The claim says toposort output is stable with
tie-breaks by NodeId, so the same graph always yields the same order.  For
the edgeless graph on the node set consisting of DB and FFMPEG (two
incomparable nodes), the set-iteration order FFMPEG, DB yields the output
FFMPEG, DB — violating the NodeId (string) order, in which DB ranks before
FFMPEG — while the iteration order DB, FFMPEG yields DB, FFMPEG: the same
graph yields two different orders depending on the unspecified Python set
iteration order. -/
theorem c6_toposort_not_nodeid_stable :
    toposort (fun _ => (∅ : Finset ControlNode)) [ControlNode.FFMPEG, ControlNode.DB]
        = [ControlNode.FFMPEG, ControlNode.DB] ∧
      toposort (fun _ => (∅ : Finset ControlNode)) [ControlNode.DB, ControlNode.FFMPEG]
        = [ControlNode.DB, ControlNode.FFMPEG] ∧
      nodeIdRank ControlNode.DB < nodeIdRank ControlNode.FFMPEG :=
  ⟨by decide, by decide, by decide⟩

/-- C3, counterexample.  The claim says the process exits non-zero on an
unrecoverable bring-up error such as a fatal start error (start returning
None) or a breaker trip.  On the graph actually built by main.py, both
causes merely set the shutdown event; execute() drains and returns
normally and run() returns 0, so the process exits 0, not non-zero. -/
theorem c3_bring_up_error_exits_zero :
    runExitCode mainIter mainNodes ShutdownCause.fatalStartError = 0 ∧
      runExitCode mainIter mainNodes ShutdownCause.breakerTrip = 0 := by
  constructor <;> decide

/-- C3, amended.  The process exits 0 after any run whose construction
succeeded — clean signal-driven or explicit shutdown, and equally shutdown
triggered by a fatal start error, a breaker trip or a closed bus — and it
exits non-zero exactly when configuration-time validation fails (empty node
list, duplicate node IDs, unknown parent, or dependency cycle), in which
case the ValueError escapes run() and the interpreter exits 1; the
representative bad graphs below are all rejected. -/
theorem c3_exit_code_characterisation :
    (∀ (iter : List ControlNode) (nodes : List NodeDecl) (cause : ShutdownCause),
        runExitCode iter nodes cause = 0 ↔
          ∃ order, runnerInit iter nodes = Except.ok order) ∧
      runExitCode mainIter [{ id := .DB }, { id := .DB }] ShutdownCause.osSignal = 1 ∧
      runExitCode mainIter [{ id := .DB, parent := [.API] }] ShutdownCause.osSignal = 1 ∧
      runExitCode [ControlNode.DB, ControlNode.SEARCH]
        [{ id := .DB, parent := [.SEARCH] }, { id := .SEARCH, parent := [.DB] }]
        ShutdownCause.osSignal = 1 := by
  refine ⟨?_, by decide, by decide, by decide⟩
  intro iter nodes cause
  unfold runExitCode
  cases h : runnerInit iter nodes with
  | error e => simp [h]
  | ok order => simp [h]

theorem processDependents_eq (dependents : List ControlNode) :
    dependents.Nodup → ∀ s : KahnState,
      processDependents dependents s =
        { counts := fun d => if d ∈ dependents then s.counts d - 1 else s.counts d
          queue := s.queue ++ dependents.filter (fun d => s.counts d - 1 = 0)
          order := s.order } := by
  induction dependents with
  | nil =>
    intro _ s
    simp [processDependents]
  | cons d ds ih =>
    intro hnd s
    rw [List.nodup_cons] at hnd
    rw [show processDependents (d :: ds) s = processDependents ds
        { counts := Function.update s.counts d (s.counts d - 1)
          queue := if s.counts d - 1 = 0 then s.queue ++ [d] else s.queue
          order := s.order } from rfl, ih hnd.2]
    have h1 : (fun e => if e ∈ ds then Function.update s.counts d (s.counts d - 1) e - 1
        else Function.update s.counts d (s.counts d - 1) e) =
        (fun e => if e ∈ d :: ds then s.counts e - 1 else s.counts e) := by
      funext e
      by_cases hed : e = d
      · subst hed
        simp [Function.update_same, hnd.1]
      · simp [Function.update_noteq hed, hed, List.mem_cons]
    have h2 : ds.filter
        (fun e => Function.update s.counts d (s.counts d - 1) e - 1 = 0)
        = ds.filter (fun e => s.counts e - 1 = 0) := by
      apply List.filter_congr
      intro e he
      have hed : e ≠ d := fun h => hnd.1 (h ▸ he)
      rw [Function.update_noteq hed]
    rw [h1, h2, List.filter_cons]
    by_cases hd0 : s.counts d - 1 = 0
    · simp [hd0]
    · simp [hd0]

theorem kahnInv_init (deps : ControlNode → Finset ControlNode)
    (iter : List ControlNode) (hiter : iter.Nodup) :
    KahnInv deps iter
      { counts := fun n => ((deps n).card : Int)
        queue := iter.filter (fun n => (deps n).card = 0)
        order := [] } := by
  have hzero : ∀ n ∈ iter.filter (fun n => ((deps n).card = 0 : Bool)),
      deps n = ∅ := by
    intro n hn
    have h := List.of_mem_filter hn
    simp at h
    exact h
  refine ⟨?_, ?_, ?_, ?_, ?_, ?_, ?_, ?_⟩
  · intro d _
    unfold kahnPendingCount
    rw [Finset.filter_true_of_mem (fun p _ => List.not_mem_nil p)]
  · simpa using hiter.filter _
  · intro n hn p hp
    rw [hzero n hn] at hp
    exact absurd hp (Finset.not_mem_empty p)
  · intro n hn; cases hn
  · intro n hn; cases hn
  · intro n hn
    exact List.mem_of_mem_filter hn
  · exact List.Pairwise.nil
  · intro n hn; cases hn

theorem kahnInv_step (deps : ControlNode → Finset ControlNode) (iter : List ControlNode)
    (hiter : iter.Nodup) (s : KahnState) (hs : KahnInv deps iter s) :
    KahnInv deps iter (kahnStep deps iter s) := by
  rcases s with ⟨counts, queue, order⟩
  cases queue with
  | nil => exact hs
  | cons n rest =>
    obtain ⟨hcnt, hnd, hqd, hod, hos, hqs, hfwd, hns⟩ := hs
    simp only at hcnt hnd hqd hod hos hqs hfwd hns
    have hds_nodup : (iter.filter (fun d => decide (n ∈ deps d))).Nodup :=
      hiter.filter _
    rw [show kahnStep deps iter ⟨counts, n :: rest, order⟩ =
        processDependents (iter.filter (fun d => decide (n ∈ deps d)))
          ⟨counts, rest, order ++ [n]⟩ from rfl,
      processDependents_eq _ hds_nodup]
    have hnd' := List.nodup_append.mp hnd
    have hn_not_order : n ∉ order := fun h => hnd'.2.2 h (List.mem_cons_self n rest)
    have hn_iter : n ∈ iter := hqs n (List.mem_cons_self n rest)
    have hn_deps : ∀ p ∈ deps n, p ∈ order := hqd n (List.mem_cons_self n rest)
    have hn_no_self : n ∉ deps n := fun h => hn_not_order (hn_deps n h)
    have hmem_ds : ∀ d, d ∈ iter.filter (fun d => decide (n ∈ deps d)) ↔
        d ∈ iter ∧ n ∈ deps d := by
      intro d
      simp [List.mem_filter]
    have hfilter_append : ∀ d : ControlNode,
        (deps d).filter (fun p => p ∉ order ++ [n]) =
          ((deps d).filter (fun p => p ∉ order)).erase n := by
      intro d
      ext p
      simp only [Finset.mem_filter, Finset.mem_erase, List.mem_append,
        List.mem_singleton]
      constructor
      · rintro ⟨hp, hno⟩
        exact ⟨fun h => hno (Or.inr h), hp, fun h => hno (Or.inl h)⟩
      · rintro ⟨hpn, hp, hpo⟩
        exact ⟨hp, fun h => h.elim hpo hpn⟩
    have hnewq : ∀ d0, d0 ∈ (iter.filter (fun d => decide (n ∈ deps d))).filter
        (fun d => decide (counts d - 1 = 0)) →
        d0 ∈ iter ∧ n ∈ deps d0 ∧ counts d0 = 1 := by
      intro d0 h
      simp [List.mem_filter] at h
      obtain ⟨ha, hb, hc⟩ := h
      exact ⟨ha, hc, by omega⟩
    have hfresh : ∀ d0, d0 ∈ iter → counts d0 = 1 → n ∈ deps d0 →
        d0 ∉ order ∧ d0 ≠ n ∧ d0 ∉ rest ∧ ∀ p ∈ deps d0, p ∈ order ++ [n] := by
      intro d0 hd0i hc1 hnd0
      have hcard : ((deps d0).filter (fun p => p ∉ order)).card = 1 := by
        have h := (hcnt d0 hd0i).symm.trans hc1
        unfold kahnPendingCount at h
        exact_mod_cast h
      have hsubfull : (∀ p ∈ deps d0, p ∈ order) → False := by
        intro hsub
        have hempty : (deps d0).filter (fun p => p ∉ order) = ∅ := by
          apply Finset.filter_eq_empty_iff.mpr
          intro p hp
          simp [hsub p hp]
        rw [hempty] at hcard
        simp at hcard
      have hn_mem_filter : n ∈ (deps d0).filter (fun p => p ∉ order) :=
        Finset.mem_filter.mpr ⟨hnd0, hn_not_order⟩
      have hsingle : (deps d0).filter (fun p => p ∉ order) = {n} := by
        obtain ⟨x, hx⟩ := Finset.card_eq_one.mp hcard
        rw [hx] at hn_mem_filter ⊢
        rw [Finset.mem_singleton.mp hn_mem_filter]
      refine ⟨?_, ?_, ?_, ?_⟩
      · intro hmem
        exact hsubfull (hod d0 hmem)
      · intro h
        exact hn_no_self (h ▸ hnd0)
      · intro h
        exact hsubfull (hqd d0 (List.mem_cons_of_mem n h))
      · intro p hp
        by_cases hpo : p ∈ order
        · exact List.mem_append_left _ hpo
        · have : p ∈ (deps d0).filter (fun p => p ∉ order) :=
            Finset.mem_filter.mpr ⟨hp, hpo⟩
          rw [hsingle, Finset.mem_singleton] at this
          subst this
          exact List.mem_append_right _ (List.mem_singleton.mpr rfl)
    refine ⟨?_, ?_, ?_, ?_, ?_, ?_, ?_, ?_⟩
    · intro d hd_iter
      simp only
      unfold kahnPendingCount
      rw [hfilter_append d]
      by_cases hndd : n ∈ deps d
      · rw [if_pos ((hmem_ds d).mpr ⟨hd_iter, hndd⟩)]
        have hn_mem_filter : n ∈ (deps d).filter (fun p => p ∉ order) :=
          Finset.mem_filter.mpr ⟨hndd, hn_not_order⟩
        rw [Finset.card_erase_of_mem hn_mem_filter]
        have h1le : 1 ≤ ((deps d).filter (fun p => p ∉ order)).card :=
          Finset.one_le_card.mpr ⟨n, hn_mem_filter⟩
        have h := hcnt d hd_iter
        unfold kahnPendingCount at h
        omega
      · rw [if_neg (fun h => hndd ((hmem_ds d).mp h).2)]
        rw [Finset.erase_eq_of_not_mem
          (fun h => hndd (Finset.mem_filter.mp h).1)]
        exact hcnt d hd_iter
    · simp only
      have hrw : (order ++ [n]) ++ (rest ++ (iter.filter
          (fun d => decide (n ∈ deps d))).filter (fun d => decide (counts d - 1 = 0))) =
          (order ++ n :: rest) ++ (iter.filter
          (fun d => decide (n ∈ deps d))).filter (fun d => decide (counts d - 1 = 0)) := by
        simp
      rw [hrw]
      refine hnd.append (hds_nodup.filter _) ?_
      intro a ha haQ
      obtain ⟨haiter, handeps, hac⟩ := hnewq a haQ
      obtain ⟨hno, hnn, hnr, _⟩ := hfresh a haiter hac handeps
      rcases List.mem_append.mp ha with h | h
      · exact hno h
      · rcases List.mem_cons.mp h with h | h
        · exact hnn h
        · exact hnr h
    · intro m hm p hp
      simp only at hm ⊢
      rcases List.mem_append.mp hm with h | h
      · exact List.mem_append_left _ (hqd m (List.mem_cons_of_mem n h) p hp)
      · obtain ⟨hmi, hmnd, hmc⟩ := hnewq m h
        exact (hfresh m hmi hmc hmnd).2.2.2 p hp
    · intro m hm p hp
      simp only at hm ⊢
      rcases List.mem_append.mp hm with h | h
      · exact List.mem_append_left _ (hod m h p hp)
      · have hmn := List.mem_singleton.mp h
        subst hmn
        exact List.mem_append_left _ (hn_deps p hp)
    · intro m hm
      simp only at hm
      rcases List.mem_append.mp hm with h | h
      · exact hos m h
      · rw [List.mem_singleton.mp h]
        exact hn_iter
    · intro m hm
      simp only at hm
      rcases List.mem_append.mp hm with h | h
      · exact hqs m (List.mem_cons_of_mem n h)
      · exact (hnewq m h).1
    · simp only
      rw [List.pairwise_append]
      refine ⟨hfwd, List.pairwise_singleton _ _, ?_⟩
      intro a ha b hb
      rw [List.mem_singleton.mp hb]
      intro hcontra
      exact hn_not_order (hod a ha n hcontra)
    · intro m hm
      simp only at hm
      rcases List.mem_append.mp hm with h | h
      · exact hns m h
      · rw [List.mem_singleton.mp h]
        exact hn_no_self

theorem kahnInv_run (deps : ControlNode → Finset ControlNode) (iter : List ControlNode)
    (hiter : iter.Nodup) :
    ∀ (fuel : Nat) (s : KahnState), KahnInv deps iter s →
      KahnInv deps iter (kahnRun deps iter fuel s) := by
  intro fuel
  induction fuel with
  | zero => intro s hs; exact hs
  | succ fuel ih =>
    intro s hs
    exact ih _ (kahnInv_step deps iter hiter s hs)

theorem toposort_eq_final (deps : ControlNode → Finset ControlNode)
    (iter : List ControlNode) : toposort deps iter = (kahnFinal deps iter).order := rfl

theorem toposort_inv (deps : ControlNode → Finset ControlNode) (iter : List ControlNode)
    (hiter : iter.Nodup) : KahnInv deps iter (kahnFinal deps iter) :=
  kahnInv_run deps iter hiter _ _ (kahnInv_init deps iter hiter)

theorem toposort_nodup (deps : ControlNode → Finset ControlNode)
    (iter : List ControlNode) (hiter : iter.Nodup) : (toposort deps iter).Nodup := by
  rw [toposort_eq_final]
  exact (List.nodup_append.mp (toposort_inv deps iter hiter).nodup).1

theorem toposort_parent_index_lt (deps : ControlNode → Finset ControlNode)
    (iter : List ControlNode) (hiter : iter.Nodup) {p c : ControlNode}
    (hp : p ∈ deps c) (hpo : p ∈ toposort deps iter) (hco : c ∈ toposort deps iter) :
    (toposort deps iter).indexOf p < (toposort deps iter).indexOf c := by
  have hinv := toposort_inv deps iter hiter
  rw [toposort_eq_final] at hpo hco ⊢
  have hnodup : (kahnFinal deps iter).order.Nodup :=
    (List.nodup_append.mp hinv.nodup).1
  have hne : p ≠ c := fun h => hinv.no_self c hco (h ▸ hp)
  rcases Nat.lt_trichotomy ((kahnFinal deps iter).order.indexOf p)
      ((kahnFinal deps iter).order.indexOf c) with h | h | h
  · exact h
  · exact absurd ((List.indexOf_inj hpo hco).mp h) hne
  · exfalso
    have hlc : (kahnFinal deps iter).order.indexOf c <
        (kahnFinal deps iter).order.length := List.indexOf_lt_length.mpr hco
    have hlp : (kahnFinal deps iter).order.indexOf p <
        (kahnFinal deps iter).order.length := List.indexOf_lt_length.mpr hpo
    have hpair := List.pairwise_iff_getElem.mp hinv.forward
      ((kahnFinal deps iter).order.indexOf c)
      ((kahnFinal deps iter).order.indexOf p) hlc hlp h
    rw [List.getElem_indexOf hlc, List.getElem_indexOf hlp] at hpair
    exact hpair hp

theorem toposort_ancestor_before (deps : ControlNode → Finset ControlNode)
    (iter : List ControlNode) (hiter : iter.Nodup) {a d : ControlNode}
    (hanc : Relation.TransGen (fun p c => p ∈ deps c) a d) :
    d ∈ toposort deps iter →
      a ∈ toposort deps iter ∧
        (toposort deps iter).indexOf a < (toposort deps iter).indexOf d := by
  have hinv := toposort_inv deps iter hiter
  induction hanc with
  | single h =>
    rename_i b
    intro hd
    have ha : a ∈ toposort deps iter := by
      rw [toposort_eq_final] at hd ⊢
      exact hinv.order_deps _ hd _ h
    exact ⟨ha, toposort_parent_index_lt deps iter hiter h ha hd⟩
  | tail hab hbd ih =>
    rename_i b c
    intro hd
    have hb : b ∈ toposort deps iter := by
      rw [toposort_eq_final] at hd ⊢
      exact hinv.order_deps _ hd _ hbd
    obtain ⟨ha, hlt⟩ := ih hb
    exact ⟨ha, hlt.trans (toposort_parent_index_lt deps iter hiter hbd hb hd)⟩

theorem pair_sublist_of_indexOf_lt {α : Type} [DecidableEq α] :
    ∀ (l : List α) (x y : α), x ∈ l → y ∈ l →
      l.indexOf x < l.indexOf y → List.Sublist [x, y] l := by
  intro l
  induction l with
  | nil => intro x y hx _ _; cases hx
  | cons a t ih =>
    intro x y hx hy h
    by_cases hxa : x = a
    · subst hxa
      have hyx : y ≠ x := by
        intro hcontra
        subst hcontra
        exact Nat.lt_irrefl _ h
      have hyt : y ∈ t := (List.mem_cons.mp hy).resolve_left hyx
      exact List.Sublist.cons₂ x (List.singleton_sublist.mpr hyt)
    · have hya : y ≠ a := by
        intro hcontra
        subst hcontra
        rw [List.indexOf_cons_self] at h
        exact Nat.not_lt_zero _ h
      have hxt : x ∈ t := (List.mem_cons.mp hx).resolve_left hxa
      have hyt : y ∈ t := (List.mem_cons.mp hy).resolve_left hya
      rw [List.indexOf_cons_ne t (Ne.symm hxa), List.indexOf_cons_ne t (Ne.symm hya)] at h
      exact List.Sublist.cons a (ih x y hxt hyt (Nat.lt_of_succ_lt_succ h))

/-- C8.  During shutdown the supervisor stops every still-running node in
reverse topological order: whenever a is an ancestor of d in the dependency
graph (a transitive parent), the construction-time cycle check passed, and
both nodes are still running, the stop of the descendant d is issued before
the stop of the ancestor a: the pair [d, a] is a sublist of the issued stop
sequence. -/
theorem c8_shutdown_stops_in_reverse_topological_order
    (deps : ControlNode → Finset ControlNode) (iter : List ControlNode)
    (handles : ControlNode → Bool) (a d : ControlNode) (hiter : iter.Nodup)
    (hlen : (toposort deps iter).length = iter.length)
    (hanc : Relation.TransGen (fun p c => p ∈ deps c) a d) (hd : d ∈ iter)
    (hha : handles a = true) (hhd : handles d = true) :
    List.Sublist [d, a] (gracefulStopSequence deps iter handles) := by
  have hnodup := toposort_nodup deps iter hiter
  have hsub : toposort deps iter ⊆ iter := by
    intro x hx
    rw [toposort_eq_final] at hx
    exact (toposort_inv deps iter hiter).order_sub x hx
  have hperm : (toposort deps iter).Perm iter :=
    (hnodup.subperm hsub).perm_of_length_le (Nat.le_of_eq hlen.symm)
  have hdo : d ∈ toposort deps iter := hperm.mem_iff.mpr hd
  obtain ⟨hao, hlt⟩ := toposort_ancestor_before deps iter hiter hanc hdo
  have hpair : List.Sublist [a, d] (toposort deps iter) :=
    pair_sublist_of_indexOf_lt (toposort deps iter) a d hao hdo hlt
  have hrev : List.Sublist [d, a] (toposort deps iter).reverse := by
    have h := hpair.reverse
    simpa using h
  have hfil := hrev.filter handles
  rwa [show List.filter handles [d, a] = [d, a] by simp [hha, hhd]] at hfil

/-- Witness for c8_shutdown_stops_in_reverse_topological_order, on the graph
built by main.py: DB is an ancestor (direct parent) of SEARCH, all nodes
hold handles, and the stop of SEARCH is issued before the stop of DB. -/
theorem c8_shutdown_stops_in_reverse_topological_order_witness :
    List.Sublist [ControlNode.SEARCH, ControlNode.DB]
      (gracefulStopSequence (runnerParents mainNodes) mainIter (fun _ => true)) :=
  c8_shutdown_stops_in_reverse_topological_order (runnerParents mainNodes) mainIter
    (fun _ => true) ControlNode.DB ControlNode.SEARCH (by decide) (by decide)
    (Relation.TransGen.single (by decide)) (by decide) rfl rfl
